import Mathlib

/-!
Verification of the go-tcheck concurrent check runner.

This file gives a shallow embedding of the repository into Lean 4:

* `CheckItem`, `NewCheckItem`, `ReportSubProgress`, `CheckItem.Run` embed
  src/item.go (the Task state machine and the sub-progress reporter).
* `CheckManager`, `NewCheckManager`, `AddCheck`, `CalculateOverallProgress`
  embed the CheckManager source file (manager construction, registration
  and the aggregate progress query).
* `SchedStep` is an interleaving small-step model of the bounded-concurrency
  gate of `CheckManager.RunAllChecks` (the fixed-capacity token channel
  `activeWorkers`).
* `closeChan` / `UIRenderer.Stop` and `drawScrollClamp` / `keyDownScroll`
  embed the quit-signal handling and the scroll clamping of src/render.go.

Go machine integers are modelled as `Int` (values stay far from the 64-bit
range everywhere relevant); a Go `error` value is modelled as
`Option String` (`none` = nil); an opaque caller-supplied check function is
modelled by its observable behaviour: the list of `ReportSubProgress` calls
it makes followed by its outcome (return nil, return an error, or fault).
-/

/-- Embeds `CheckStatus` and its four constants (src/item.go lines 7-15). -/
inductive CheckStatus where
  | Pending
  | InProgress
  | Completed
  | Failed
deriving DecidableEq, Repr

/-- Outcome of one invocation of a caller-supplied check function: it either
returns nil, returns a non-nil error, or faults (a runtime fault such as an
out-of-range access, which in Go unwinds the stack). -/
inductive CheckOutcome where
  | ok
  | err (e : String)
  | fault (msg : String)
deriving DecidableEq, Repr

/-- Behavioural model of a Go `CheckFunc` (src/item.go line 24): the sequence
of `(percentage, message)` pairs it passes to `ReportSubProgress`, followed
by its outcome.  (The real type is an opaque function; only these
interactions with the Task are observable.) -/
structure CheckFn where
  reports : List (Int × String)
  outcome : CheckOutcome
deriving DecidableEq, Repr

/-- Embeds the `CheckItem` struct (src/item.go lines 27-37).  The mutex is
modelled away: every embedded operation is one atomic state transformation,
which is exactly the serialisation the per-item lock enforces. -/
structure CheckItem where
  id : Int
  name : String
  status : CheckStatus
  subProgress : Int
  subMessage : String
  error : Option String
  runFunc : CheckFn
  reporterActive : Bool
deriving DecidableEq, Repr

/-- Embeds `NewCheckItem` (src/item.go lines 40-47).  Fields the Go literal
omits take the Go zero value: 0, "", nil, false. -/
def NewCheckItem (id : Int) (name : String) (fn : CheckFn) : CheckItem :=
  { id := id
    name := name
    status := .Pending
    subProgress := 0
    subMessage := ""
    error := none
    runFunc := fn
    reporterActive := false }

/-- Embeds `checkItemReporter.ReportSubProgress` (src/item.go lines 54-70):
under the item lock, when the item is `InProgress` and the reporter is
active, clamp the percentage into [0,100] and store it with the message;
otherwise do nothing. -/
def ReportSubProgress (ci : CheckItem) (percentage : Int) (message : String) : CheckItem :=
  if ci.status = .InProgress ∧ ci.reporterActive then
    let p1 := if percentage < 0 then (0 : Int) else percentage
    let p2 := if p1 > 100 then (100 : Int) else p1
    { ci with subProgress := p2, subMessage := message }
  else
    ci

/-- The first locked section of `CheckItem.Run` (src/item.go lines 74-80):
mark the item in progress and reset the reporting fields. -/
def runStart (ci : CheckItem) : CheckItem :=
  { ci with
    status := .InProgress
    subProgress := 0
    subMessage := ""
    error := none
    reporterActive := true }

/-- The sequence of reporter calls a check function performs, applied in
order (each one is src/item.go lines 54-70 under the item lock). -/
def reportSeq (rs : List (Int × String)) (ci : CheckItem) : CheckItem :=
  rs.foldl (fun c pm => ReportSubProgress c pm.1 pm.2) ci

/-- The second locked section of `CheckItem.Run` (src/item.go lines 85-94):
disable the reporter, then record failure (status and error) or success
(status, and the forced 100 sub-progress). -/
def runFinish (ci : CheckItem) (err : Option String) : CheckItem :=
  let c := { ci with reporterActive := false }
  match err with
  | some e => { c with status := .Failed, error := some e }
  | none => { c with status := .Completed, subProgress := 100 }

/-- Result of `CheckItem.Run`: either Run returns normally with the final
item state, or the check function faulted.  `Run` installs no recovery
handler, so in the fault case the two final locked writes (src/item.go
lines 85-94) never execute and the fault unwinds out of `Run` carrying the
item state reached so far. -/
inductive RunResult where
  | done (ci : CheckItem)
  | propagatedFault (ci : CheckItem) (msg : String)
deriving DecidableEq, Repr

/-- Embeds `CheckItem.Run` (src/item.go lines 73-95), driving the item
through the start section, the reporter calls of the check function, and
(when the function does not fault) the finish section. -/
def CheckItem.Run (ci : CheckItem) : RunResult :=
  let c1 := runStart ci
  let c2 := reportSeq ci.runFunc.reports c1
  match ci.runFunc.outcome with
  | .ok => .done (runFinish c2 none)
  | .err e => .done (runFinish c2 (some e))
  | .fault m => .propagatedFault c2 m

/-- Fate of the worker goroutine `RunAllChecks` spawns per item (CheckManager
source, lines 64-72).  The goroutine body calls `check.Run()` with no
recovery handler of its own, so a fault propagating out of `Run` reaches
the top of the goroutine; in Go an unrecovered fault in any goroutine
terminates the whole process. -/
inductive GoroutineOutcome where
  | completed (ci : CheckItem)
  | processCrash (msg : String)
deriving DecidableEq, Repr

/-- Embeds the per-item worker goroutine of `CheckManager.RunAllChecks`
(CheckManager source, lines 64-72), as far as the item state is concerned. -/
def runWorker (ci : CheckItem) : GoroutineOutcome :=
  match ci.Run with
  | .done c => .completed c
  | .propagatedFault _ m => .processCrash m

section TaskLemmas

/-- A reporter call never touches the status field. -/
theorem reportSubProgress_status (ci : CheckItem) (p : Int) (m : String) :
    (ReportSubProgress ci p m).status = ci.status := by
  unfold ReportSubProgress
  split <;> rfl

/-- A reporter call never touches the reporterActive flag. -/
theorem reportSubProgress_active (ci : CheckItem) (p : Int) (m : String) :
    (ReportSubProgress ci p m).reporterActive = ci.reporterActive := by
  unfold ReportSubProgress
  split <;> rfl

/-- A reporter call never touches the error field. -/
theorem reportSubProgress_error (ci : CheckItem) (p : Int) (m : String) :
    (ReportSubProgress ci p m).error = ci.error := by
  unfold ReportSubProgress
  split <;> rfl

/-- A sequence of reporter calls never touches the status field. -/
theorem reportSeq_status (rs : List (Int × String)) (ci : CheckItem) :
    (reportSeq rs ci).status = ci.status := by
  induction rs generalizing ci with
  | nil => rfl
  | cons a t ih =>
      unfold reportSeq at ih ⊢
      rw [List.foldl_cons, ih, reportSubProgress_status]

/-- A sequence of reporter calls never touches the reporterActive flag. -/
theorem reportSeq_active (rs : List (Int × String)) (ci : CheckItem) :
    (reportSeq rs ci).reporterActive = ci.reporterActive := by
  induction rs generalizing ci with
  | nil => rfl
  | cons a t ih =>
      unfold reportSeq at ih ⊢
      rw [List.foldl_cons, ih, reportSubProgress_active]

/-- A sequence of reporter calls never touches the error field. -/
theorem reportSeq_error (rs : List (Int × String)) (ci : CheckItem) :
    (reportSeq rs ci).error = ci.error := by
  induction rs generalizing ci with
  | nil => rfl
  | cons a t ih =>
      unfold reportSeq at ih ⊢
      rw [List.foldl_cons, ih, reportSubProgress_error]

/-- One reporter call keeps the stored sub-progress inside [0, 100] as long
as it was inside before. -/
theorem reportSubProgress_bounds (ci : CheckItem) (p : Int) (m : String)
    (h0 : 0 ≤ ci.subProgress) (h1 : ci.subProgress ≤ 100) :
    0 ≤ (ReportSubProgress ci p m).subProgress ∧
      (ReportSubProgress ci p m).subProgress ≤ 100 := by
  unfold ReportSubProgress
  split
  · simp only
    constructor <;> split <;> split <;> omega
  · exact ⟨h0, h1⟩

end TaskLemmas

/-- Embeds the `CheckManager` struct (CheckManager source, lines 9-15).
The `uiUpdate` callback plays no role in the state claims and is dropped;
the fixed-capacity token channel `activeWorkers` is represented by its
capacity `maxConcurrent` (its token discipline is modelled by `SchedStep`
below). -/
structure CheckManager where
  items : List CheckItem
  itemCounter : Int
  maxConcurrent : Nat
deriving DecidableEq, Repr

/-- Embeds `NewCheckManager` (CheckManager source, lines 19-27):
`maxConcurrentChecks` is raised to at least 1 and becomes the channel
capacity; the item list and counter start empty. -/
def NewCheckManager (maxConcurrentChecks : Int) : CheckManager :=
  { items := []
    itemCounter := 0
    maxConcurrent := (max maxConcurrentChecks 1).toNat }

/-- Embeds `CheckManager.AddCheck` (CheckManager source, lines 30-36):
increment the counter and append a fresh pending item carrying the new
counter value as its id. -/
def AddCheck (cm : CheckManager) (name : String) (fn : CheckFn) : CheckManager :=
  let n := cm.itemCounter + 1
  { cm with itemCounter := n, items := cm.items ++ [NewCheckItem n name fn] }

/-- Embeds `CheckManager.CalculateOverallProgress` (CheckManager source,
lines 112-130): an early `(0,0,0)` return on an empty list, then a loop
counting the items whose status is `Completed` or `Failed`, and the integer
quotient `completedCount*100/totalCount` (Go integer division truncates;
both operands are non-negative here, so this is the floor).  Counts are
returned as `Nat` since they are non-negative by construction. -/
def CalculateOverallProgress (cm : CheckManager) : Nat × Nat × Nat :=
  if cm.items.length = 0 then (0, 0, 0)
  else
    let completedCount := cm.items.foldl
      (fun acc item =>
        if item.status = .Completed ∨ item.status = .Failed then acc + 1 else acc) 0
    let totalCount := cm.items.length
    (completedCount, totalCount, completedCount * 100 / totalCount)

/-- The aggregate-progress query as the specification words it (spec §4.2):
`(doneCount, totalCount, percent)` with `doneCount` the count of Tasks in
`Completed` or `Failed`, `totalCount` the number registered, and
`percent = floor(doneCount*100/totalCount)`, or `(0,0,0)` when
`totalCount == 0`.  Stated declaratively with `countP`, to be compared with
the loop of `CalculateOverallProgress`. -/
def specOverallProgress (cm : CheckManager) : Nat × Nat × Nat :=
  let totalCount := cm.items.length
  if totalCount = 0 then (0, 0, 0)
  else
    let doneCount :=
      cm.items.countP (fun it => decide (it.status = .Completed ∨ it.status = .Failed))
    (doneCount, totalCount, doneCount * 100 / totalCount)

/-- Overwrite the status of the item with the given id, as the repository
tests do directly under the item lock (manager test file, lines 91-93). -/
def setItemStatus (cm : CheckManager) (i : Int) (s : CheckStatus) : CheckManager :=
  { cm with
    items := cm.items.map fun it => if it.id = i then { it with status := s } else it }

/-- A trivial check function used to populate concrete managers. -/
def trivialFn : CheckFn := ⟨[], .ok⟩

/-- A manager with three registered (pending) checks, as in the repository
test `TestCalculateOverallProgress`. -/
def cm3 : CheckManager :=
  AddCheck (AddCheck (AddCheck (NewCheckManager 1) "check1" trivialFn)
    "check2" trivialFn) "check3" trivialFn

/-- `cm3` after the first check completes. -/
def cm3oneDone : CheckManager := setItemStatus cm3 1 .Completed

/-- `cm3oneDone` after the second check fails. -/
def cm3twoDone : CheckManager := setItemStatus cm3oneDone 2 .Failed

section ManagerLemmas

/-- The counting loop of `CalculateOverallProgress` computes `countP`. -/
theorem foldl_count_eq_countP {α : Type} (p : α → Prop) [DecidablePred p]
    (l : List α) (n : Nat) :
    l.foldl (fun acc a => if p a then acc + 1 else acc) n = n + l.countP (fun a => decide (p a)) := by
  induction l generalizing n with
  | nil => simp [List.countP_nil]
  | cons a t ih =>
      rw [List.foldl_cons, List.countP_cons, ih]
      by_cases h : p a
      · simp only [if_pos h, decide_eq_true_eq, h, if_true]
        omega
      · simp [h]

end ManagerLemmas

/-!
Interleaving model of the bounded-concurrency gate of
`CheckManager.RunAllChecks` (CheckManager source, lines 50-74).  Each
pending item goes through four observable events, in this order:

* `acquire` — the launching loop executes `cm.activeWorkers <- struct{}{}`
  (line 62); it can proceed only when the channel, of capacity
  `maxConcurrent`, has a free slot, i.e. when fewer than `limit` items
  currently hold a token;
* `start`   — the goroutine enters `check.Run()` and its first locked
  section sets the status to `InProgress` (src/item.go line 75);
* `finish`  — the final locked section of `Run` records the terminal
  status (src/item.go lines 85-94) and `Run` returns;
* `release` — the deferred `<-cm.activeWorkers` (line 66) gives the token
  back.

Any interleaving of these per-item events that respects the order and the
channel capacity is a behaviour of the scheduler; `SchedStep` is the
corresponding small-step relation.
-/

/-- The phase an item has reached inside `RunAllChecks`. -/
inductive TaskPhase where
  | idle
  | acquired
  | running
  | finished
  | released
deriving DecidableEq, Repr

/-- Whether an item in this phase holds a token of the `activeWorkers`
channel (taken at `acquire`, given back at `release`). -/
def holdsSlot : TaskPhase → Bool
  | .acquired => true
  | .running => true
  | .finished => true
  | _ => false

/-- Global scheduler state: the concurrency limit (the capacity of
`activeWorkers`, i.e. `CheckManager.maxConcurrent`) and the phase of each
launched item. -/
structure SchedState where
  limit : Nat
  phases : List TaskPhase
deriving DecidableEq, Repr

/-- Number of tokens of the `activeWorkers` channel currently taken. -/
def slotsHeld (s : SchedState) : Nat := s.phases.countP holdsSlot

/-- Number of items whose status is currently `InProgress`. -/
def runningCount (s : SchedState) : Nat := s.phases.countP (fun p => p == .running)

/-- Replace the phase of item `i`. -/
def setPhase (s : SchedState) (i : Nat) (ph : TaskPhase) : SchedState :=
  { s with phases := s.phases.set i ph }

/-- One observable event of `RunAllChecks`: the four per-item transitions
described above, each guarded by the phase the item is in, and `acquire`
additionally by a free channel slot. -/
inductive SchedStep : SchedState → SchedState → Prop where
  | acquire (s : SchedState) (i : Nat) (h : s.phases[i]? = some .idle)
      (hs : slotsHeld s < s.limit) : SchedStep s (setPhase s i .acquired)
  | start (s : SchedState) (i : Nat) (h : s.phases[i]? = some .acquired) :
      SchedStep s (setPhase s i .running)
  | finish (s : SchedState) (i : Nat) (h : s.phases[i]? = some .running) :
      SchedStep s (setPhase s i .finished)
  | release (s : SchedState) (i : Nat) (h : s.phases[i]? = some .finished) :
      SchedStep s (setPhase s i .released)

/-- Initial scheduler state: `n` pending items, none launched, with
concurrency limit `c`. -/
def initSched (c n : Nat) : SchedState :=
  { limit := c, phases := List.replicate n .idle }

/-- A state the scheduler can reach from the initial one by any
interleaving of the per-item events. -/
def SchedReachable (c n : Nat) (s : SchedState) : Prop :=
  Relation.ReflTransGen SchedStep (initSched c n) s

section SchedLemmas

/-- Effect of `List.set` on `countP`, in additive form. -/
theorem countP_set_add {α : Type} (p : α → Bool) (l : List α) (i : Nat)
    (a0 a : α) (h : l[i]? = some a0) :
    (l.set i a).countP p + (if p a0 then 1 else 0) =
      l.countP p + (if p a then 1 else 0) := by
  induction l generalizing i with
  | nil => simp at h
  | cons b t ih =>
      cases i with
      | zero =>
          simp only [List.getElem?_cons_zero, Option.some.injEq] at h
          subst h
          simp only [List.set_cons_zero, List.countP_cons]
          omega
      | succ j =>
          simp only [List.getElem?_cons_succ] at h
          simp only [List.set_cons_succ, List.countP_cons]
          have := ih j h
          omega

/-- Every step preserves the concurrency limit. -/
theorem schedStep_limit {s t : SchedState} (h : SchedStep s t) : t.limit = s.limit := by
  cases h <;> rfl

/-- Every step keeps the number of taken channel tokens at or below the
channel capacity. -/
theorem schedStep_slots {s t : SchedState} (h : SchedStep s t)
    (hs : slotsHeld s ≤ s.limit) : slotsHeld t ≤ t.limit := by
  cases h with
  | acquire i hi hlt =>
      have heq := countP_set_add holdsSlot s.phases i .idle .acquired hi
      simp [holdsSlot] at heq
      simp only [slotsHeld, setPhase] at hs hlt heq ⊢
      omega
  | start i hi =>
      have heq := countP_set_add holdsSlot s.phases i .acquired .running hi
      simp [holdsSlot] at heq
      simp only [slotsHeld, setPhase] at hs heq ⊢
      omega
  | finish i hi =>
      have heq := countP_set_add holdsSlot s.phases i .running .finished hi
      simp [holdsSlot] at heq
      simp only [slotsHeld, setPhase] at hs heq ⊢
      omega
  | release i hi =>
      have heq := countP_set_add holdsSlot s.phases i .finished .released hi
      simp [holdsSlot] at heq
      simp only [slotsHeld, setPhase] at hs heq ⊢
      omega

/-- In any state, the items in `InProgress` are among the token holders. -/
theorem runningCount_le_slotsHeld (s : SchedState) : runningCount s ≤ slotsHeld s := by
  unfold runningCount slotsHeld
  apply List.countP_mono_left
  intro ph _ hp
  cases ph <;> simp_all [holdsSlot]

/-- Every reachable state keeps the taken tokens at or below the capacity,
and keeps the capacity equal to the initial one. -/
theorem schedReachable_inv (c n : Nat) (s : SchedState) (h : SchedReachable c n s) :
    slotsHeld s ≤ s.limit ∧ s.limit = c := by
  induction h with
  | refl =>
      constructor
      · unfold slotsHeld initSched
        have : (List.replicate n TaskPhase.idle).countP holdsSlot = 0 := by
          rw [List.countP_eq_zero]
          intro a ha
          rw [List.eq_of_mem_replicate ha]
          simp [holdsSlot]
        simp [this]
      · rfl
  | tail _ hstep ih =>
      rename_i t u
      refine ⟨schedStep_slots hstep ih.1, ?_⟩
      rw [schedStep_limit hstep, ih.2]

end SchedLemmas

/-!
Embedding of the quit-signal handling and the scroll state of
src/render.go.  The `quit` channel of `UIRenderer` carries no values; its
only observable state is whether it has been closed, modelled as a `Bool`.
-/

/-- Go channel-close semantics: `close(ch)` on an open channel closes it;
`close(ch)` on an already-closed channel is a runtime fault ("close of
closed channel").  The result is the new closed-state on success, or the
fault message. -/
def closeChan (alreadyClosed : Bool) : Except String Bool :=
  if alreadyClosed then Except.error "close of closed channel" else Except.ok true

/-- Embeds `UIRenderer.Stop` (src/render.go lines 260-262): it performs
`close(ui.quit)` unconditionally, with no guard on the current state of the
channel. -/
def UIRenderer.Stop (quitClosed : Bool) : Except String Bool :=
  closeChan quitClosed

/-- Embeds the quit-key branch of the event loop of `UIRenderer.Run`
(src/render.go lines 222-225): on Escape, Ctrl-C or the letter q it also
performs `close(ui.quit)` unconditionally. -/
def runQuitKey (quitClosed : Bool) : Except String Bool :=
  closeChan quitClosed

/-- Embeds the Down-key scroll update of `UIRenderer.Run` (src/render.go
lines 227-237): increment `scrollTop` only while
`scrollTop < itemsCount - displayableRows` with `displayableRows = h - 1`. -/
def keyDownScroll (scrollTop itemsCount h : Int) : Int :=
  let displayableRows := h - 1
  if scrollTop < itemsCount - displayableRows then scrollTop + 1 else scrollTop

/-- Embeds the Up-key scroll update of `UIRenderer.Run` (src/render.go
lines 238-245): decrement `scrollTop` only while it is positive. -/
def keyUpScroll (scrollTop : Int) : Int :=
  if scrollTop > 0 then scrollTop - 1 else scrollTop

/-- Embeds the scroll-clamping step of `UIRenderer.Draw` (src/render.go
lines 103-110), reached only when `height ≥ 3`: with
`displayableRows = height - 1`, reset `scrollTop` to
`max(numItems - displayableRows, 0)` when it is positive, at least
`numItems - displayableRows + 1`, and `numItems > displayableRows`;
otherwise leave it unchanged. -/
def drawScrollClamp (scrollTop numItems height : Int) : Int :=
  let displayableRows := height - 1
  if scrollTop > 0 ∧ scrollTop ≥ numItems - displayableRows + 1 ∧
      numItems > displayableRows then
    max (numItems - displayableRows) 0
  else
    scrollTop

/-!
Concrete items and managers used by the claim theorems and their
witnesses.  They mirror the fixtures of the repository test files.
-/

/-- An item whose check reports once and then fails, as in the test
`TestCheckItem_Run_Failure`. -/
def failDemoItem : CheckItem := NewCheckItem 3 "fail" ⟨[(30, "Failing soon")], .err "fail"⟩

/-- An item whose check reports three times and succeeds, as in the test
`TestCheckItem_Run_Success`. -/
def okDemoItem : CheckItem :=
  NewCheckItem 2 "success" ⟨[(10, "Started"), (50, "Halfway"), (100, "Done")], .ok⟩

/-- An item whose check reports out-of-range percentages, as in the test
`TestCheckItem_SubProgressBounds`. -/
def boundsDemoItem : CheckItem :=
  NewCheckItem 4 "bounds" ⟨[(-10, "Too low"), (110, "Too high")], .ok⟩

/-- A fresh pending item that never runs. -/
def pendingDemoItem : CheckItem := NewCheckItem 5 "pending" trivialFn

/-- An item already finalized as completed. -/
def terminalDemoItem : CheckItem := { NewCheckItem 9 "done" trivialFn with status := .Completed }

/-- An item whose check function faults. -/
def faultDemoItem : CheckItem := NewCheckItem 8 "fault" ⟨[], .fault "boom"⟩

/-- C1: after `Run()` returns, a non-nil error from the check function
leaves the Task `Failed` with the error stored verbatim, a nil return
leaves it `Completed` with `subProgress` forced to 100, and in both cases
the reporting flag is off. -/
theorem run_finalizes_status_error_and_reporting (ci : CheckItem) :
    (∀ e : String, ci.runFunc.outcome = .err e →
      ∃ c, ci.Run = .done c ∧ c.status = .Failed ∧ c.error = some e ∧
        c.reporterActive = false) ∧
    (ci.runFunc.outcome = .ok →
      ∃ c, ci.Run = .done c ∧ c.status = .Completed ∧ c.subProgress = 100 ∧
        c.reporterActive = false) := by
  constructor
  · intro e he
    unfold CheckItem.Run
    rw [he]
    exact ⟨_, rfl, rfl, rfl, rfl⟩
  · intro h
    unfold CheckItem.Run
    rw [h]
    exact ⟨_, rfl, rfl, rfl, rfl⟩

/-- Witness for C1 at the two fixtures of the item tests. -/
theorem run_finalizes_status_error_and_reporting_witness :
    (∃ c, failDemoItem.Run = .done c ∧ c.status = .Failed ∧ c.error = some "fail" ∧
      c.reporterActive = false) ∧
    (∃ c, okDemoItem.Run = .done c ∧ c.status = .Completed ∧ c.subProgress = 100 ∧
      c.reporterActive = false) :=
  ⟨(run_finalizes_status_error_and_reporting failDemoItem).1 "fail" rfl,
   (run_finalizes_status_error_and_reporting okDemoItem).2 rfl⟩

/-- C2: `CalculateOverallProgress` agrees with the aggregate-progress query
as the specification words it (done = count of Completed or Failed, total =
registered count, percent = floor(done*100/total), and (0,0,0) on an empty
manager), and takes the concrete values (0,0,0), (0,3,0), (1,3,33) and
(2,3,66) on the staged three-item manager. -/
theorem calculateOverallProgress_correct :
    (∀ cm : CheckManager, CalculateOverallProgress cm = specOverallProgress cm) ∧
    CalculateOverallProgress (NewCheckManager 1) = (0, 0, 0) ∧
    CalculateOverallProgress cm3 = (0, 3, 0) ∧
    CalculateOverallProgress cm3oneDone = (1, 3, 33) ∧
    CalculateOverallProgress cm3twoDone = (2, 3, 66) := by
  refine ⟨?_, rfl, rfl, rfl, rfl⟩
  intro cm
  unfold CalculateOverallProgress specOverallProgress
  simp only
  split
  · simp_all
  · rw [foldl_count_eq_countP]
    simp

/-- C3: a report made while the Task is in progress with reporting enabled
stores the percentage clamped into [0,100] together with the message; any
sequence of reports keeps `subProgress` inside [0,100]; reporting -10
stores 0, then reporting 110 stores 100; and a successful run ends at 100. -/
theorem subProgress_clamped_and_bounded :
    (∀ (ci : CheckItem) (p : Int) (m : String),
      ci.status = .InProgress → ci.reporterActive = true →
      (ReportSubProgress ci p m).subProgress = min 100 (max 0 p) ∧
        (ReportSubProgress ci p m).subMessage = m) ∧
    (∀ (rs : List (Int × String)) (ci : CheckItem),
      0 ≤ ci.subProgress → ci.subProgress ≤ 100 →
      0 ≤ (reportSeq rs ci).subProgress ∧ (reportSeq rs ci).subProgress ≤ 100) ∧
    ((ReportSubProgress (runStart pendingDemoItem) (-10) "Too low").subProgress = 0 ∧
      (ReportSubProgress (ReportSubProgress (runStart pendingDemoItem) (-10) "Too low")
        110 "Too high").subProgress = 100) ∧
    (∃ c, boundsDemoItem.Run = .done c ∧ c.subProgress = 100) := by
  refine ⟨?_, ?_, ⟨rfl, rfl⟩, ⟨_, rfl, rfl⟩⟩
  · intro ci p m h1 h2
    simp only [ReportSubProgress, h1, h2, and_self, if_true, true_and]
    constructor
    · split <;> split <;> omega
    · trivial
  · intro rs
    induction rs with
    | nil => exact fun ci h0 h1 => ⟨h0, h1⟩
    | cons a t ih =>
        intro ci h0 h1
        unfold reportSeq at ih ⊢
        rw [List.foldl_cons]
        have := reportSubProgress_bounds ci a.1 a.2 h0 h1
        exact ih _ this.1 this.2

/-- Witness for C3: clamping and the bounds invariant at concrete inputs. -/
theorem subProgress_clamped_and_bounded_witness :
    (ReportSubProgress (runStart pendingDemoItem) 110 "Too high").subProgress =
      min 100 (max 0 110) ∧
    (0 ≤ (reportSeq [((-10 : Int), "Too low"), (110, "Too high")]
        (runStart pendingDemoItem)).subProgress ∧
      (reportSeq [((-10 : Int), "Too low"), (110, "Too high")]
        (runStart pendingDemoItem)).subProgress ≤ 100) :=
  ⟨(subProgress_clamped_and_bounded.1 (runStart pendingDemoItem) 110 "Too high" rfl rfl).1,
   subProgress_clamped_and_bounded.2.1 [((-10 : Int), "Too low"), (110, "Too high")]
     (runStart pendingDemoItem) (by decide) (by decide)⟩

/-- C4: a report arriving once the Task is terminal (Completed or Failed)
changes nothing at all: the whole item state is returned unchanged. -/
theorem report_after_terminal_noop (ci : CheckItem) (p : Int) (m : String)
    (h : ci.status = .Completed ∨ ci.status = .Failed) :
    ReportSubProgress ci p m = ci := by
  have hneg : ¬(ci.status = .InProgress ∧ ci.reporterActive) := by
    rintro ⟨h1, -⟩
    rcases h with h | h <;> rw [h] at h1 <;> exact CheckStatus.noConfusion h1
  simp [ReportSubProgress, hneg]

/-- Witness for C4 at a completed item. -/
theorem report_after_terminal_noop_witness :
    ReportSubProgress terminalDemoItem 50 "late" = terminalDemoItem :=
  report_after_terminal_noop terminalDemoItem 50 "late" (Or.inl rfl)

/-- C5 counterexample: a check function that faults is NOT contained.
`CheckItem.Run` (src/item.go lines 73-95) installs no recovery handler, nor
does the worker goroutine of `RunAllChecks` (CheckManager source, lines
64-72), so the fault unwinds out of both; an unrecovered fault in a Go
goroutine terminates the whole process.  The worker never yields a
finalized (degraded-to-failure) item. -/
theorem fault_not_contained_counterexample :
    runWorker faultDemoItem = .processCrash "boom" ∧
    ∀ c : CheckItem, runWorker faultDemoItem ≠ .completed c := by
  refine ⟨rfl, fun c h => ?_⟩
  rw [show runWorker faultDemoItem = .processCrash "boom" from rfl] at h
  exact GoroutineOutcome.noConfusion h

/-- C5 amended: a faulting check function propagates out of `Run` with the
finalization step skipped — the Task is left `InProgress` with the reporter
still enabled and no recorded error — and the worker goroutine ends in a
process crash rather than a per-Task degradation. -/
theorem fault_propagates_uncontained (ci : CheckItem) (m : String)
    (h : ci.runFunc.outcome = .fault m) :
    ∃ mid, ci.Run = .propagatedFault mid m ∧ mid.status = .InProgress ∧
      mid.reporterActive = true ∧ mid.error = none ∧
      runWorker ci = .processCrash m := by
  refine ⟨reportSeq ci.runFunc.reports (runStart ci), ?_, ?_, ?_, ?_, ?_⟩
  · unfold CheckItem.Run
    rw [h]
  · rw [reportSeq_status]
    rfl
  · rw [reportSeq_active]
    rfl
  · rw [reportSeq_error]
    rfl
  · unfold runWorker CheckItem.Run
    rw [h]

/-- Witness for the amended C5 at the concrete faulting item. -/
theorem fault_propagates_uncontained_witness :
    ∃ mid, faultDemoItem.Run = .propagatedFault mid "boom" ∧
      mid.status = .InProgress ∧ mid.reporterActive = true ∧ mid.error = none ∧
      runWorker faultDemoItem = .processCrash "boom" :=
  fault_propagates_uncontained faultDemoItem "boom" rfl

/-- C6: in every state the scheduler model can reach from `n` pending items
under concurrency limit `c` — by any interleaving of slot acquisition, run
start, run finish and slot release (`SchedStep` embeds the token-channel
discipline of `RunAllChecks`) — at most `c` items are `InProgress`
simultaneously. -/
theorem runAllChecks_bounded_concurrency (c n : Nat) (s : SchedState)
    (h : SchedReachable c n s) : runningCount s ≤ c := by
  have hinv := schedReachable_inv c n s h
  have hrun := runningCount_le_slotsHeld s
  omega

/-- Witness for C6: a reachable state of 5 items under limit 2, after one
item has acquired a slot and started running. -/
theorem runAllChecks_bounded_concurrency_witness :
    runningCount (setPhase (setPhase (initSched 2 5) 0 .acquired) 0 .running) ≤ 2 :=
  runAllChecks_bounded_concurrency 2 5 _
    (Relation.ReflTransGen.tail
      (Relation.ReflTransGen.tail Relation.ReflTransGen.refl
        (SchedStep.acquire (initSched 2 5) 0 (by decide) (by decide)))
      (SchedStep.start (setPhase (initSched 2 5) 0 .acquired) 0 (by decide)))

/-- C7: evaluation of the quit-signal code at the failing input.  The first
close of the quit channel succeeds, but `UIRenderer.Stop` (src/render.go
lines 260-262) performs `close(ui.quit)` with no guard, so calling it once
the channel is already closed — which the bundled example does by calling
`ui.Run()` (quit key closes the channel) followed by `ui.Stop()` — faults
with "close of closed channel" instead of being a no-op. -/
theorem stop_on_closed_quit_faults :
    UIRenderer.Stop false = Except.ok true ∧
    runQuitKey false = Except.ok true ∧
    UIRenderer.Stop true = Except.error "close of closed channel" ∧
    runQuitKey true = Except.error "close of closed channel" :=
  ⟨rfl, rfl, rfl, rfl⟩

/-- C8 counterexample: the clamp of `UIRenderer.Draw` only acts when
`numItems > displayableRows`, so a `scrollTop` that was legitimately
reached while the window was small (two Down keys with 5 items on height 4)
survives a resize to height 11 unchanged, landing outside
`[0, max(0, numItems - displayableRows)] = [0, 0]`. -/
theorem scroll_clamp_counterexample :
    keyDownScroll (keyDownScroll 0 5 4) 5 4 = 2 ∧
    drawScrollClamp 2 5 11 = 2 ∧
    ¬ drawScrollClamp 2 5 11 ≤ max ((5 : Int) - (11 - 1)) 0 := by
  refine ⟨rfl, rfl, ?_⟩
  decide

/-- C8 amended: when the Task list overfills the viewport
(`numTasks > displayableRows`, with `displayableRows = height - 1`) and the
incoming `scrollTop` is non-negative, the clamping step of the redraw
leaves `scrollTop` inside `[0, max(0, numTasks - displayableRows)]`; when
the list fits the viewport the clamp does not act and a positive stale
`scrollTop` persists. -/
theorem scroll_clamp_in_range (scrollTop numItems height : Int)
    (h0 : 0 ≤ scrollTop) (h1 : numItems > height - 1) :
    0 ≤ drawScrollClamp scrollTop numItems height ∧
    drawScrollClamp scrollTop numItems height ≤ max (numItems - (height - 1)) 0 := by
  unfold drawScrollClamp
  simp only
  split
  · constructor <;> omega
  · rename_i hneg
    rw [Decidable.not_and_iff_or_not, Decidable.not_and_iff_or_not] at hneg
    constructor
    · exact h0
    · rcases hneg with h | h | h <;> omega

/-- Witness for the amended C8: an out-of-range `scrollTop` of 7 over 5
items on height 4 is clamped back to 2 = max(0, 5 - 3). -/
theorem scroll_clamp_in_range_witness :
    0 ≤ drawScrollClamp 7 5 4 ∧ drawScrollClamp 7 5 4 ≤ max ((5 : Int) - (4 - 1)) 0 :=
  scroll_clamp_in_range 7 5 4 (by decide) (by decide)

/-- C9: when the check function fails, the finalization step rewrites only
`status`, `error` and `reporterActive`; the result is exactly the state
reached by the reporter calls with those three fields overwritten, so
`subProgress` and `subMessage` keep the last reported values. -/
theorem failure_preserves_subprogress (ci : CheckItem) (e : String)
    (h : ci.runFunc.outcome = .err e) :
    ci.Run = .done { reportSeq ci.runFunc.reports (runStart ci) with
      status := .Failed, error := some e, reporterActive := false } := by
  unfold CheckItem.Run
  rw [h]
  rfl

/-- Witness for C9: the failing fixture keeps the 30% / "Failing soon"
reported just before the error. -/
theorem failure_preserves_subprogress_witness :
    failDemoItem.Run = .done { reportSeq failDemoItem.runFunc.reports
      (runStart failDemoItem) with
      status := .Failed, error := some "fail", reporterActive := false } ∧
    (reportSeq failDemoItem.runFunc.reports (runStart failDemoItem)).subProgress = 30 ∧
    (reportSeq failDemoItem.runFunc.reports (runStart failDemoItem)).subMessage =
      "Failing soon" :=
  ⟨failure_preserves_subprogress failDemoItem "fail" rfl, rfl, rfl⟩

/-- C10: a freshly created Task is `Pending` with the reporter disabled,
and a report against any Task still `Pending` changes nothing, since the
reporter requires the status to be `InProgress`. -/
theorem report_while_pending_noop (p : Int) (m : String) :
    (∀ (i : Int) (nm : String) (fn : CheckFn),
      (NewCheckItem i nm fn).status = .Pending ∧
        (NewCheckItem i nm fn).reporterActive = false) ∧
    (∀ ci : CheckItem, ci.status = .Pending → ReportSubProgress ci p m = ci) := by
  refine ⟨fun i nm fn => ⟨rfl, rfl⟩, fun ci h => ?_⟩
  have hneg : ¬(ci.status = .InProgress ∧ ci.reporterActive) := by
    rintro ⟨h1, -⟩
    rw [h] at h1
    exact CheckStatus.noConfusion h1
  simp [ReportSubProgress, hneg]

/-- Witness for C10 at a fresh pending item. -/
theorem report_while_pending_noop_witness :
    ReportSubProgress pendingDemoItem 42 "early" = pendingDemoItem :=
  (report_while_pending_noop 42 "early").2 pendingDemoItem rfl
